import Mathlib

/-!
Verification of the AccountMonitor core (binance_monitor.py, account_monitor.py).

Shallow embedding conventions:
* Exchange symbols and asset tickers are lists of characters (`Symb`).
* Monetary values and timestamps are exact rationals (`ℚ`); a timestamp is
  the wall-clock instant in seconds.
* A Python value that may be `None` / `NaN` is an `Option ℚ`; `none` is the
  absent marker throughout.
* External I/O (the Binance client) is passed in as an explicit environment:
  `priceLookup` models `get_symbol_ticker` (`none` = the call raises),
  `symbolInfo` models the `get_exchange_info` fallback (`none` = the call
  raises or the symbol is not listed).
-/

abbrev Symb : Type := List Char

def USDT : Symb := ['U', 'S', 'D', 'T']

def BUSD : Symb := ['B', 'U', 'S', 'D']

def USDC : Symb := ['U', 'S', 'D', 'C']

def BTC : Symb := ['B', 'T', 'C']

def ETH : Symb := ['E', 'T', 'H']

/-- The known quote assets, in the order of the Python literal
`quote_assets = ["USDT", "BUSD", "USDC", "BTC", "ETH"]`
(binance_monitor.py line 70). -/
def quote_assets : List Symb := [USDT, BUSD, USDC, BTC, ETH]

/-- `sorted(quote_assets, key=len, reverse=True)` (line 75): a stable sort by
descending length.  Mathlib insertion sort with the relation
`fun a b => b.length ≤ a.length` places an element before every later element
of smaller-or-equal length, which is exactly the stable descending order. -/
def quote_assets_sorted : List Symb :=
  List.insertionSort (fun a b => b.length ≤ a.length) quote_assets

/-- The suffix-matching loop of `get_balance` (lines 76-80): scan the
length-sorted quote assets, and on the first `pair.endswith(quote)` return
`(pair[:-len(quote)], quote)`. -/
def parsePair (pair : Symb) : Option (Symb × Symb) :=
  match quote_assets_sorted.find? (fun q => q.isSuffixOf pair) with
  | some q => some (pair.take (pair.length - q.length), q)
  | none => none

/-- The external market data available to one `get_balance` call. -/
structure MarketEnv where
  priceLookup : Symb → Option ℚ
  symbolInfo : Symb → Option (Symb × Symb)

/-- Base/quote resolution (lines 76-95): the suffix match, falling back to
exchange metadata when the match fails or leaves an empty base (Python
`if not base_asset or not quote_asset`; the empty string is falsy). -/
def resolve_pair (env : MarketEnv) (pair : Symb) : Option (Symb × Symb) :=
  match parsePair pair with
  | some (b, q) => if b = [] then env.symbolInfo pair else some (b, q)
  | none => env.symbolInfo pair

/-- `balances.get(asset, 0)`: look an asset up in the balance snapshot,
defaulting to `0` when the account holds none of it. -/
def balOf (balances : List (Symb × ℚ)) (s : Symb) : ℚ :=
  (balances.lookup s).getD 0

/-- The quote-to-USDT conversion step (lines 107-122): USDT itself and the
stablecoins USDC/BUSD are taken 1:1; any other quote asset is converted by the
`quote_asset + "USDT"` ticker, and the whole valuation fails (`None`) when
that lookup raises. -/
def convert_to_usdt (env : MarketEnv) (quote_asset : Symb) (quote_value : ℚ) :
    Option ℚ :=
  if quote_asset = USDT then some quote_value
  else if quote_asset = USDC ∨ quote_asset = BUSD then some quote_value
  else
    match env.priceLookup (quote_asset ++ USDT) with
    | some p => some (quote_value * p)
    | none => none

/-- `BinanceMonitor.get_balance` (lines 53-134).  `hasClient` models the
`account_name not in self.clients` guard; `fetchOk` models the outer
`try` around `client.get_account()` (a raised exception is caught and the
function returns `None`).  `balances` is the positive free+locked snapshot
the call builds. -/
def get_balance (hasClient fetchOk : Bool) (pair : Symb) (env : MarketEnv)
    (balances : List (Symb × ℚ)) : Option ℚ :=
  if ¬ hasClient then none
  else if ¬ fetchOk then none
  else
    match resolve_pair env pair with
    | none => none
    | some (base_asset, quote_asset) =>
      if base_asset = [] then none
      else
        match env.priceLookup pair with
        | none => none
        | some price =>
          let quote_value := balOf balances base_asset * price
          match convert_to_usdt env quote_asset quote_value with
          | none => none
          | some usdt_value => some (usdt_value + balOf balances USDT)

/-!
The loaded time series.  `pd.read_csv` yields a frame whose rows carry an
integer index (`idx`), a `timestamp` column (`ts`) and one optional value per
account column; a missing column or a `NaN` cell both read back as the absent
marker.
-/

structure Row where
  idx : Nat
  ts : ℚ
  cells : List (String × Option ℚ)
deriving DecidableEq

/-- `df.loc[idx, account]`: the cell of this row in the given account column,
`none` being pandas `NaN` (also used when the column is missing in the row). -/
def Row.value (r : Row) (a : String) : Option ℚ :=
  (r.cells.lookup a).getD none

structure DataFrame where
  cols : List String
  rows : List Row
deriving DecidableEq

/-- `df[account].dropna()`: the rows where the account has a present value. -/
def presentRows (df : DataFrame) (a : String) : List Row :=
  df.rows.filter (fun r => (r.value a).isSome)

/-- `365.25 * 24 * 3600`, the seconds-per-year constant of the source. -/
def yearSeconds : ℚ := 365.25 * 24 * 3600

/-- `df.loc[lo:hi]`: label-based inclusive slicing on the integer index. -/
def df_slice (df : DataFrame) (lo hi : Nat) : DataFrame :=
  ⟨df.cols, df.rows.filter (fun r => decide (lo ≤ r.idx) && decide (r.idx ≤ hi))⟩

/-- `BinanceMonitor.calculate_account_annual_return` (lines 245-283):
annualized return of one account against its own first non-absent record. -/
def calculate_account_annual_return (df : DataFrame) (a : String) : Option ℚ :=
  if df.rows.isEmpty then none
  else if ¬ a ∈ df.cols then none
  else
    match presentRows df a with
    | [] => none
    | r0 :: rest =>
      let first_value := (r0.value a).getD 0
      if first_value = 0 ∨ (r0.value a).isNone then none
      else
        let rl := (r0 :: rest).getLastD r0
        if (rl.value a).isNone then none
        else
          let last_value := (rl.value a).getD 0
          let time_diff := (rl.ts - r0.ts) / yearSeconds
          if time_diff ≤ 0 then none
          else
            let return_pct :=
              if 0 < first_value then last_value / first_value - 1 else 0
            some (if 0 < time_diff then return_pct / time_diff * 100 else 0)

/-- The per-point loop of `AccountMonitorGUI.update_return_chart`
(account_monitor.py lines 271-303): for each position `i` from 1 on, slice the
frame from the first present record of the account through the current index
and annualize over that sub-series; a `None` result is skipped, otherwise the
point carries the timestamp of the last row of the slice. -/
def update_return_chart_points (df : DataFrame) (a : String) : List (ℚ × ℚ) :=
  if ¬ a ∈ df.cols then []
  else
    match presentRows df a with
    | [] => []
    | r0 :: _ =>
      (df.rows.drop 1).filterMap (fun r =>
        if r.idx < r0.idx then none
        else
          let sub := df_slice df r0.idx r.idx
          match calculate_account_annual_return sub a, sub.rows.getLast? with
          | some ar, some rl => some (rl.ts, ar)
          | _, _ => none)

/-- The per-point loop of `AccountMonitorGUI.update_actual_return_chart`
(account_monitor.py lines 338-372): cumulative percentage return of each
present value from the first present record on, anchored to that first
value. -/
def update_actual_return_chart_points (df : DataFrame) (a : String) :
    List (ℚ × ℚ) :=
  if ¬ a ∈ df.cols then []
  else
    match presentRows df a with
    | [] => []
    | r0 :: _ =>
      let first_value := (r0.value a).getD 0
      if first_value = 0 ∨ (r0.value a).isNone then []
      else
        df.rows.filterMap (fun r =>
          if r.idx < r0.idx then none
          else
            match r.value a with
            | none => none
            | some v => some (r.ts, (v / first_value - 1) * 100))

/-- The cumulative-return formula of the specification,
`return_pct(t) = ((value_a(t) / first) - 1) * 100`. -/
def cumulative_return_spec (first v : ℚ) : ℚ := (v / first - 1) * 100

/-- The elapsed-time normalization of the specification,
`elapsed_years = (t1 - t0) in seconds / (365.25 * 24 * 3600)`. -/
def elapsed_years (t0 t1 : ℚ) : ℚ := (t1 - t0) / yearSeconds

/-- The annualized-return formula of the specification,
`annual_return(t) = (((value_a(t) / first) - 1) / elapsed_years) * 100`. -/
def annual_return_spec (first v elapsed : ℚ) : ℚ :=
  (v / first - 1) / elapsed * 100

/-!
The sample store and the scheduler.  The CSV file is `none` while it does not
exist yet, `some rows` afterwards; `save_balance_data` builds the row
`timestamp + one valuation slot per configured account` and appends it, and
`get_historical_data` returns the file contents (`None` when there is no file).
-/

structure SampleRow where
  ts : ℚ
  cells : List (String × Option ℚ)
deriving DecidableEq

/-- The row dict built by `save_balance_data` (lines 138-144): a timestamp
plus `data[account_name] = self.get_balance(account_name)` for every
configured account, in configuration order. -/
def make_sample (ts : ℚ) (accounts : List String) (value_of : String → Option ℚ) :
    SampleRow :=
  ⟨ts, accounts.map (fun a => (a, value_of a))⟩

/-- `BinanceMonitor.save_balance_data` (lines 136-160): read the existing
file (or start empty), append the new row, write back. -/
def save_balance_data (accounts : List String) (value_of : String → Option ℚ)
    (ts : ℚ) (file : Option (List SampleRow)) : Option (List SampleRow) :=
  some ((file.getD []) ++ [make_sample ts accounts value_of])

/-- `BinanceMonitor.get_historical_data` (lines 189-200): `None` when the
file does not exist, its rows otherwise. -/
def get_historical_data (file : Option (List SampleRow)) :
    Option (List SampleRow) := file

/-- State of the background monitor: the `running` flag plus the data file. -/
structure MonitorState where
  running : Bool
  file : Option (List SampleRow)
deriving DecidableEq

/-- `stop_monitoring` (lines 183-187): clear the running flag. -/
def stop_monitoring (st : MonitorState) : MonitorState := ⟨false, st.file⟩

/-- The `monitor_loop` body (lines 170-178), unrolled over a list of ticks:
while the running flag is set, each tick saves one sample (any per-account
valuation outcome, including all-absent, is just data) and the loop goes on;
once the flag is cleared nothing further happens. -/
def monitor_loop (accounts : List String) :
    List (ℚ × (String → Option ℚ)) → MonitorState → MonitorState
  | [], st => st
  | (ts, f) :: rest, st =>
    if st.running then
      monitor_loop accounts rest ⟨true, save_balance_data accounts f ts st.file⟩
    else st

/-!
Concrete data used by the closed witness and counterexample theorems.
`31557600` is one year of seconds (`365.25 * 24 * 3600`); the two-row frame
`dfA` is the specification scenario `[(t0, A=100), (t1 = t0 + 365.25d, A=150)]`.
-/

def rowA0 : Row := ⟨0, 0, [("A", some 100)]⟩

def rowA1 : Row := ⟨1, 31557600, [("A", some 150)]⟩

def dfA : DataFrame := ⟨["timestamp", "A"], [rowA0, rowA1]⟩

/-- A third observation where the value of account `A` is absent. -/
def rowB2 : Row := ⟨2, 63115200, [("A", none)]⟩

def dfB : DataFrame := ⟨["timestamp", "A"], [rowA0, rowA1, rowB2]⟩

def rowN0 : Row := ⟨0, 0, [("A", some (-100))]⟩

def rowN1 : Row := ⟨1, 31557600, [("A", some (-50))]⟩

/-- A series whose first present value is negative. -/
def dfN : DataFrame := ⟨["timestamp", "A"], [rowN0, rowN1]⟩

def dfEmpty : DataFrame := ⟨["timestamp", "A"], []⟩

/-- A series where account `A` is absent at every observation. -/
def dfAbsent : DataFrame := ⟨["timestamp", "A"], [⟨0, 0, [("A", none)]⟩, ⟨1, 60, [("A", none)]⟩]⟩

/-- A series whose first present value for account `A` is zero. -/
def dfZero : DataFrame := ⟨["timestamp", "A"], [⟨0, 0, [("A", some 0)]⟩, ⟨1, 60, [("A", some 5)]⟩]⟩

/-- A market with no reachable symbol at all: every lookup raises. -/
def envNone : MarketEnv := ⟨fun _ => none, fun _ => none⟩

/-- A market quoting only the pair `XUSDT`, at price 3. -/
def envX : MarketEnv :=
  ⟨fun s => if s = ['X'] ++ USDT then some 3 else none, fun _ => none⟩

/-- A market quoting the pair `XBTC` at 2 and the conversion `BTCUSDT` at 5. -/
def envXBTC : MarketEnv :=
  ⟨fun s =>
    if s = ['X'] ++ BTC then some 2
    else if s = BTC ++ USDT then some 5
    else none,
   fun _ => none⟩

/-- A market quoting the pair `XBTC` at 2 with no conversion pair listed. -/
def envXBTCnoconv : MarketEnv :=
  ⟨fun s => if s = ['X'] ++ BTC then some 2 else none, fun _ => none⟩

/-- The per-account valuation a tick performs:
`data[account_name] = self.get_balance(account_name)`. -/
def tick_value_of (hasClient fetchOk : String → Bool) (pair : Symb)
    (env : String → MarketEnv) (bal : String → List (Symb × ℚ)) :
    String → Option ℚ :=
  fun a => get_balance (hasClient a) (fetchOk a) pair (env a) (bal a)

/-- A tick outcome where the valuation of account `A` failed. -/
def valW : String → Option ℚ := fun b => if b = "A" then none else some 1

/-- The same tick outcome except that the valuation of `A` succeeded. -/
def valW2 : String → Option ℚ := fun b => if b = "A" then some 5 else some 1

/-- A configuration where only account `B` has a usable credential handle. -/
def hasClientW : String → Bool := fun b => b == "B"

/-!  Theorems.  -/

theorem quote_assets_sorted_eq :
    quote_assets_sorted = [USDT, BUSD, USDC, BTC, ETH] := by decide

/-- No two distinct known quote tickers can both be suffixes of one symbol:
any two suffixes of the same list are comparable, and no known ticker is a
proper suffix of another. -/
theorem quote_suffix_unique : ∀ q1 ∈ quote_assets, ∀ q2 ∈ quote_assets,
    ∀ pair : Symb, q1 <:+ pair → q2 <:+ pair → q1 = q2 := by
  have htab : ∀ q1 ∈ quote_assets, ∀ q2 ∈ quote_assets, q1 <:+ q2 → q1 = q2 := by
    decide
  intro q1 h1 q2 h2 pair hs1 hs2
  rcases List.suffix_or_suffix_of_suffix hs1 hs2 with h | h
  · exact htab q1 h1 q2 h2 h
  · exact (htab q2 h2 q1 h1 h).symm

theorem parsePair_of_find (pair q : Symb)
    (h : quote_assets_sorted.find? (fun q => q.isSuffixOf pair) = some q) :
    parsePair pair = some (pair.take (pair.length - q.length), q) := by
  unfold parsePair
  rw [h]

/-- C1: every symbol of the shape `base ++ ticker` with `ticker` a known quote
asset parses to exactly `(base, ticker)`, and no other known ticker that is a
suffix of the symbol is longer than the chosen one. -/
theorem parse_pair_longest_suffix (t q : Symb) (hq : q ∈ quote_assets) :
    parsePair (t ++ q) = some (t, q) ∧
      ∀ q2 ∈ quote_assets, q2 <:+ t ++ q → q2.length ≤ q.length := by
  have hsuf : q <:+ t ++ q := ⟨t, rfl⟩
  have htrue : q.isSuffixOf (t ++ q) = true := List.isSuffixOf_iff_suffix.mpr hsuf
  have hfalse : ∀ e ∈ quote_assets, e ≠ q → e.isSuffixOf (t ++ q) = false := by
    intro e he hne
    by_contra h
    rw [Bool.not_eq_false, List.isSuffixOf_iff_suffix] at h
    exact hne (quote_suffix_unique e he q hq (t ++ q) h hsuf)
  have hlen : (t ++ q).length - q.length = t.length := by
    simp [List.length_append]
  constructor
  · have hfind : quote_assets_sorted.find? (fun x => x.isSuffixOf (t ++ q)) = some q := by
      rw [quote_assets_sorted_eq]
      have hq5 : q = USDT ∨ q = BUSD ∨ q = USDC ∨ q = BTC ∨ q = ETH := by
        simpa [quote_assets] using hq
      rcases hq5 with rfl | rfl | rfl | rfl | rfl
      · simp [List.find?, htrue]
      · simp [List.find?, htrue, hfalse USDT (by decide) (by decide)]
      · simp [List.find?, htrue, hfalse USDT (by decide) (by decide),
          hfalse BUSD (by decide) (by decide)]
      · simp [List.find?, htrue, hfalse USDT (by decide) (by decide),
          hfalse BUSD (by decide) (by decide), hfalse USDC (by decide) (by decide)]
      · simp [List.find?, htrue, hfalse USDT (by decide) (by decide),
          hfalse BUSD (by decide) (by decide), hfalse USDC (by decide) (by decide),
          hfalse BTC (by decide) (by decide)]
    rw [parsePair_of_find _ _ hfind, hlen, List.take_left]
  · intro q2 hq2 hs2
    rw [quote_suffix_unique q2 hq2 q hq (t ++ q) hs2 hsuf]

/-- C1 witness: the symbol `XUSDT` splits into base `X` and quote `USDT`. -/
theorem parse_pair_longest_suffix_witness :
    parsePair (['X'] ++ USDT) = some (['X'], USDT) :=
  (parse_pair_longest_suffix ['X'] USDT (by decide)).1

/-- C2 (amended): for an account whose first present value is positive, the
annualized return over the series from that first record through the last
present record equals `(((value / first) - 1) / elapsed_years) * 100`, and no
value is produced exactly when `elapsed_years ≤ 0`. -/
theorem calculate_account_annual_return_formula
    (df : DataFrame) (a : String) (r0 rl : Row) (rest : List Row) (v0 vl : ℚ)
    (hcol : a ∈ df.cols)
    (hfilter : presentRows df a = r0 :: rest)
    (hv0 : r0.value a = some v0) (hpos : 0 < v0)
    (hlast : (r0 :: rest).getLastD r0 = rl)
    (hvl : rl.value a = some vl) :
    calculate_account_annual_return df a =
      if elapsed_years r0.ts rl.ts ≤ 0 then none
      else some (annual_return_spec v0 vl (elapsed_years r0.ts rl.ts)) := by
  have hrows : df.rows.isEmpty = false := by
    cases h : df.rows with
    | nil =>
      exfalso
      unfold presentRows at hfilter
      rw [h] at hfilter
      simp at hfilter
    | cons x xs => rfl
  unfold calculate_account_annual_return
  rw [hrows, hfilter]
  simp only [Bool.false_eq_true, if_false, hv0, hlast, hvl, Option.getD_some,
    Option.isNone_some, or_false]
  rw [if_neg (by intro h; exact h hcol), if_neg hpos.ne']
  unfold elapsed_years annual_return_spec yearSeconds
  rcases le_or_lt ((rl.ts - r0.ts) / (365.25 * 24 * 3600)) 0 with he | he
  · rw [if_pos he, if_pos he]
  · rw [if_neg (not_le.mpr he), if_neg (not_le.mpr he), if_pos he, if_pos hpos]

/-- C2 counterexample: on a series whose first present value is `-100` and
last is `-50` one year later, the code yields `0` while the claimed formula
yields `-50`. -/
theorem calculate_annual_return_negative_first_counterexample :
    calculate_account_annual_return dfN "A" = some 0 ∧
      annual_return_spec (-100) (-50) (elapsed_years 0 31557600) = -50 ∧
      calculate_account_annual_return dfN "A" ≠
        some (annual_return_spec (-100) (-50) (elapsed_years 0 31557600)) := by
  refine ⟨?_, ?_, ?_⟩
  · simp [calculate_account_annual_return, presentRows, Row.value, dfN, rowN0,
      rowN1, List.lookup, yearSeconds]
    norm_num
  · simp [annual_return_spec, elapsed_years, yearSeconds]
    norm_num
  · simp [calculate_account_annual_return, presentRows, Row.value, dfN, rowN0,
      rowN1, List.lookup, yearSeconds, annual_return_spec, elapsed_years]
    norm_num

/-- C2 witness: the scenario `[(t0, A=100), (t1 = t0 + 365.25d, A=150)]`
annualizes to `50` at `t1`. -/
theorem calculate_account_annual_return_formula_witness :
    calculate_account_annual_return dfA "A" = some 50 := by
  have h := calculate_account_annual_return_formula dfA "A" rowA0 rowA1 [rowA1]
    100 150 (by decide) (by decide) (by decide) (by norm_num) (by decide) (by decide)
  rw [h]
  rw [if_neg (by simp [elapsed_years, yearSeconds, rowA0, rowA1]; norm_num)]
  simp [annual_return_spec, elapsed_years, yearSeconds, rowA0, rowA1]
  norm_num

/-- Skipping in a per-row loop: filtering out the indices before `k` and the
absent cells is the same as mapping over the present rows from `k` on. -/
theorem filterMap_if_present (l : List Row) (a : String) (k : Nat)
    (g : Row → ℚ → ℚ × ℚ) :
    l.filterMap (fun r =>
      if r.idx < k then none
      else match r.value a with
        | none => none
        | some v => some (g r v)) =
    (l.filter (fun r => decide (k ≤ r.idx) && (r.value a).isSome)).map
      (fun r => g r ((r.value a).getD 0)) := by
  induction l with
  | nil => rfl
  | cons r l ih =>
    by_cases hk : r.idx < k
    · have h1 : ¬ k ≤ r.idx := by omega
      simp only [List.filterMap_cons, List.filter_cons, if_pos hk, ih]
      simp [h1]
    · have h1 : k ≤ r.idx := by omega
      cases hv : r.value a with
      | none =>
        simp only [List.filterMap_cons, List.filter_cons, if_neg hk, hv, ih]
        simp [h1, hv]
      | some v =>
        simp only [List.filterMap_cons, List.filter_cons, if_neg hk, hv, ih]
        simp [h1, hv]

/-- The cumulative-return chart, characterized: one point per present row from
the first present record on, each carrying the row timestamp and the
cumulative-return formula anchored at the first present value. -/
theorem actual_points_characterization
    (df : DataFrame) (a : String) (r0 : Row) (rest : List Row) (v0 : ℚ)
    (hcol : a ∈ df.cols)
    (hfilter : presentRows df a = r0 :: rest)
    (hv0 : r0.value a = some v0) (hne : v0 ≠ 0) :
    update_actual_return_chart_points df a =
      (df.rows.filter (fun r => decide (r0.idx ≤ r.idx) && (r.value a).isSome)).map
        (fun r => (r.ts, cumulative_return_spec v0 ((r.value a).getD 0))) := by
  unfold update_actual_return_chart_points
  rw [hfilter]
  simp only [hv0, Option.getD_some, Option.isNone_some, Bool.false_eq_true,
    or_false]
  rw [if_neg (by intro h; exact h hcol), if_neg hne]
  exact filterMap_if_present df.rows a r0.idx
    (fun r v => (r.ts, (v / v0 - 1) * 100))

/-- C3: the cumulative return at each present observation from the first
present record on equals `((value / first) - 1) * 100`; no point is produced
when the account has no present value at all, when the first present value is
zero, at indices before the first present record, or where the value is
absent; and when defined the point at the first present record is `0`. -/
theorem update_actual_return_chart_correct
    (df : DataFrame) (a : String) (hcol : a ∈ df.cols) :
    (presentRows df a = [] → update_actual_return_chart_points df a = []) ∧
    (∀ (r0 : Row) (rest : List Row) (v0 : ℚ),
      presentRows df a = r0 :: rest → r0.value a = some v0 →
      (v0 = 0 → update_actual_return_chart_points df a = []) ∧
      (v0 ≠ 0 →
        update_actual_return_chart_points df a =
          (df.rows.filter
            (fun r => decide (r0.idx ≤ r.idx) && (r.value a).isSome)).map
            (fun r => (r.ts, cumulative_return_spec v0 ((r.value a).getD 0))) ∧
        (update_actual_return_chart_points df a).head? = some (r0.ts, 0))) := by
  constructor
  · intro h0
    unfold update_actual_return_chart_points
    rw [h0, if_neg (by intro h; exact h hcol)]
  · intro r0 rest v0 hfilter hv0
    constructor
    · intro h0
      unfold update_actual_return_chart_points
      rw [hfilter]
      simp only [hv0, Option.getD_some]
      rw [if_neg (by intro h; exact h hcol), if_pos (Or.inl h0)]
    · intro hne
      have hchar := actual_points_characterization df a r0 rest v0 hcol hfilter hv0 hne
      refine ⟨hchar, ?_⟩
      obtain ⟨l₁, l₂, hdf, h₁, hr0, -⟩ :=
        List.filter_eq_cons_iff.mp hfilter
      have hl₁ : l₁.filter (fun r => decide (r0.idx ≤ r.idx) && (r.value a).isSome) = [] := by
        rw [List.filter_eq_nil_iff]
        intro x hx
        simp only [Bool.and_eq_true, not_and]
        intro _
        exact h₁ x hx
      rw [hchar, hdf, List.filter_append, hl₁, List.nil_append, List.filter_cons,
        if_pos (by simp [hr0])]
      simp only [List.map_cons, List.head?_cons, hv0, Option.getD_some]
      have : cumulative_return_spec v0 v0 = 0 := by
        unfold cumulative_return_spec
        rw [div_self hne]
        norm_num
      rw [this]

/-- C3 witness: on the scenario frame the cumulative-return points are
`(t0, 0)` and `(t1, 50)`, and the first point is `0`. -/
theorem update_actual_return_chart_correct_witness :
    update_actual_return_chart_points dfA "A" = [(0, 0), (31557600, 50)] ∧
      (update_actual_return_chart_points dfA "A").head? = some (rowA0.ts, 0) := by
  have h := (update_actual_return_chart_correct dfA "A" (by decide)).2 rowA0 [rowA1]
    100 (by decide) (by decide)
  have h2 := h.2 (by norm_num)
  refine ⟨?_, h2.2⟩
  rw [h2.1]
  simp [dfA, rowA0, rowA1, Row.value, cumulative_return_spec, List.lookup]
  norm_num

/-- In a frame with strictly increasing integer index, the last row of a
filtered selection that keeps `r` and drops everything after `r` is `r`
itself. -/
theorem filter_getLast?_pairwise (l : List Row) (p : Row → Bool) (r : Row)
    (hmono : l.Pairwise (fun x y => x.idx < y.idx))
    (hr : r ∈ l) (hpr : p r = true)
    (hafter : ∀ y : Row, r.idx < y.idx → p y = false) :
    (l.filter p).getLast? = some r := by
  induction l with
  | nil => cases hr
  | cons x xs ih =>
    rcases List.mem_cons.mp hr with rfl | hr'
    · have hxs : xs.filter p = [] := by
        rw [List.filter_eq_nil_iff]
        intro y hy
        simp [hafter y ((List.pairwise_cons.mp hmono).1 y hy)]
      rw [List.filter_cons, if_pos hpr, hxs]
      rfl
    · have hmono' := (List.pairwise_cons.mp hmono).2
      have hne : xs.filter p ≠ [] := by
        intro h
        have hmem : r ∈ xs.filter p := List.mem_filter.mpr ⟨hr', hpr⟩
        rw [h] at hmem
        cases hmem
      rw [List.filter_cons]
      by_cases hx : p x = true
      · rw [if_pos hx]
        cases h : xs.filter p with
        | nil => exact absurd h hne
        | cons y ys =>
          rw [List.getLast?_cons_cons, ← h]
          exact ih hmono' hr'
      · rw [if_neg hx]
        exact ih hmono' hr'

/-- C4 (amended): on a frame with strictly increasing index, the
cumulative-return chart emits points exactly at the present rows from the
first present record on (absent rows are skipped without error and output
resumes at the next present row), while the annualized-return chart loop
emits a point at every position from 1 on at or after the first present
record whose sliced sub-series annualizes, present or absent alike, the point
carrying the timestamp of that row. -/
theorem return_charts_absent_handling
    (df : DataFrame) (a : String) (r0 : Row) (rest : List Row) (v0 : ℚ)
    (hcol : a ∈ df.cols)
    (hmono : df.rows.Pairwise (fun x y => x.idx < y.idx))
    (hfilter : presentRows df a = r0 :: rest)
    (hv0 : r0.value a = some v0) (hne : v0 ≠ 0) :
    (update_actual_return_chart_points df a =
      (df.rows.filter (fun r => decide (r0.idx ≤ r.idx) && (r.value a).isSome)).map
        (fun r => (r.ts, cumulative_return_spec v0 ((r.value a).getD 0)))) ∧
    (∀ r ∈ df.rows.drop 1, r0.idx ≤ r.idx →
      ∀ ar : ℚ,
        calculate_account_annual_return (df_slice df r0.idx r.idx) a = some ar →
          (r.ts, ar) ∈ update_return_chart_points df a) := by
  constructor
  · exact actual_points_characterization df a r0 rest v0 hcol hfilter hv0 hne
  · intro r hr hle ar hcalc
    unfold update_return_chart_points
    rw [hfilter]
    rw [if_neg (by intro h; exact h hcol)]
    apply List.mem_filterMap.mpr
    refine ⟨r, hr, ?_⟩
    have hrmem : r ∈ df.rows := List.drop_subset _ _ hr
    have hlast : (df_slice df r0.idx r.idx).rows.getLast? = some r := by
      apply filter_getLast?_pairwise df.rows _ r hmono hrmem
      · simp [hle]
      · intro y hy
        simp only [Bool.and_eq_false_iff, decide_eq_false_iff_not]
        right
        omega
    have hnl : ¬ r.idx < r0.idx := Nat.not_lt.mpr hle
    simp only [if_neg hnl, hcalc, hlast]

/-- C4 counterexample: with `A` present at rows 0, 1 and absent at row 2, the
annualized-return chart still emits a point at the absent row 2 (timestamp
`63115200`), repeating the return through the last present value. -/
theorem annual_chart_absent_emission_counterexample :
    rowB2.value "A" = none ∧
      update_return_chart_points dfB "A" = [(31557600, 50), (63115200, 50)] ∧
      (rowB2.ts, (50 : ℚ)) ∈ update_return_chart_points dfB "A" := by
  have hpts : update_return_chart_points dfB "A" = [(31557600, 50), (63115200, 50)] := by
    simp [update_return_chart_points, presentRows, Row.value, dfB, rowA0, rowA1,
      rowB2, List.lookup, List.filterMap, df_slice,
      calculate_account_annual_return, yearSeconds]
    norm_num
  refine ⟨by decide, hpts, ?_⟩
  rw [hpts]
  have hts : rowB2.ts = 63115200 := by decide
  rw [hts]
  simp

/-- C4 witness: on the three-row frame the annualized chart emits the point
of the present row 1. -/
theorem return_charts_absent_handling_witness :
    (rowA1.ts, (50 : ℚ)) ∈ update_return_chart_points dfB "A" := by
  have h := return_charts_absent_handling dfB "A" rowA0 [rowA1] 100
    (by decide) (by decide) (by decide) (by decide) (by norm_num)
  apply h.2 rowA1 (by decide) (by decide) 50
  simp [df_slice, dfB, rowA0, rowA1, rowB2, calculate_account_annual_return,
    presentRows, Row.value, List.lookup, yearSeconds]
  norm_num

/-- Converting a zero quote value either fails (no conversion pair) or yields
zero: `0 * p = 0`. -/
theorem convert_to_usdt_zero (env : MarketEnv) (q : Symb) :
    convert_to_usdt env q 0 = none ∨ convert_to_usdt env q 0 = some 0 := by
  unfold convert_to_usdt
  split_ifs
  · right; rfl
  · right; rfl
  · cases h : env.priceLookup (q ++ USDT) with
    | none => left; rfl
    | some p => right; simp

/-- C5 (amended): provided the pair resolves, the pair price lookup succeeds
and the quote-to-reference conversion is available, an account holding zero
(or none) of the base asset values to exactly its direct reference-currency
balance. -/
theorem zero_base_balance_valuation
    (pair b q : Symb) (env : MarketEnv) (balances : List (Symb × ℚ)) (p c : ℚ)
    (hres : resolve_pair env pair = some (b, q))
    (hb : b ≠ [])
    (hbal : balOf balances b = 0)
    (hprice : env.priceLookup pair = some p)
    (hconv : convert_to_usdt env q 0 = some c) :
    get_balance true true pair env balances = some (balOf balances USDT) := by
  have hc0 : c = 0 := by
    rcases convert_to_usdt_zero env q with h | h
    · rw [h] at hconv; cases hconv
    · rw [h] at hconv; injection hconv with h'; exact h'.symm
  unfold get_balance
  rw [if_neg (by simp), if_neg (by simp), hres]
  simp only [if_neg hb, hprice, hbal, zero_mul, hconv, hc0, zero_add]

/-- C5 counterexample: with the pair `BTCUSDT` resolved, a zero base-asset
balance, and a market where every price lookup raises, valuation fails
(`None`) instead of returning the direct reference-currency balance `0`. -/
theorem zero_base_balance_valuation_counterexample :
    parsePair (BTC ++ USDT) = some (BTC, USDT) ∧
      balOf [] BTC = 0 ∧
      get_balance true true (BTC ++ USDT) envNone [] = none ∧
      get_balance true true (BTC ++ USDT) envNone [] ≠ some (balOf [] USDT) := by
  refine ⟨by decide, by decide, by rfl, by decide⟩

/-- C6: the conversion step leaves the quote value unchanged when the quote
asset is the reference currency USDT or a recognized stablecoin (USDC, BUSD),
multiplies by the looked-up `quote_asset ++ USDT` price otherwise, and the
valuation returns the absent marker when that conversion symbol is
unavailable. -/
theorem conversion_step_correct (env : MarketEnv) (q : Symb) (v : ℚ) :
    (q = USDT ∨ q = USDC ∨ q = BUSD → convert_to_usdt env q v = some v) ∧
    (q ≠ USDT → q ≠ USDC → q ≠ BUSD →
      convert_to_usdt env q v =
        (env.priceLookup (q ++ USDT)).map (fun p => v * p)) ∧
    (∀ (pair b : Symb) (balances : List (Symb × ℚ)) (p : ℚ),
      resolve_pair env pair = some (b, q) → b ≠ [] →
      env.priceLookup pair = some p →
      convert_to_usdt env q (balOf balances b * p) = none →
      get_balance true true pair env balances = none) := by
  refine ⟨?_, ?_, ?_⟩
  · intro hq
    unfold convert_to_usdt
    rcases hq with rfl | rfl | rfl
    · rw [if_pos rfl]
    · rw [if_neg (by decide), if_pos (Or.inl rfl)]
    · rw [if_neg (by decide), if_pos (Or.inr rfl)]
  · intro h1 h2 h3
    unfold convert_to_usdt
    rw [if_neg h1, if_neg (by rintro (h | h) <;> [exact h2 h; exact h3 h])]
    cases h : env.priceLookup (q ++ USDT) with
    | none => rfl
    | some p => rfl
  · intro pair b balances p hres hb hprice hcnone
    unfold get_balance
    rw [if_neg (by simp), if_neg (by simp), hres]
    simp only [if_neg hb, hprice, hcnone]

/-- C6 witness: USDT is kept 1:1, a BTC quote value is multiplied by the
`BTCUSDT` price, and a BTC quote with no `BTCUSDT` listing makes the
valuation absent. -/
theorem conversion_step_correct_witness :
    convert_to_usdt envXBTC USDT 9 = some 9 ∧
      convert_to_usdt envXBTC BTC 4 = some 20 ∧
      get_balance true true (['X'] ++ BTC) envXBTCnoconv [(['X'], 4)] = none := by
  refine ⟨(conversion_step_correct envXBTC USDT 9).1 (Or.inl rfl), ?_, ?_⟩
  · have h := (conversion_step_correct envXBTC BTC 4).2.1
      (by decide) (by decide) (by decide)
    rw [h]
    have hp : envXBTC.priceLookup (BTC ++ USDT) = some 5 := by decide
    rw [hp]
    simp
    norm_num
  · exact (conversion_step_correct envXBTCnoconv BTC 0).2.2
      (['X'] ++ BTC) ['X'] [(['X'], 4)] 2
      (by decide) (by decide) (by decide) (by decide)

/-- C5 witness: pair `XUSDT` at price 3, no holdings of `X`, a direct USDT
balance of 7: valuation returns exactly 7. -/
theorem zero_base_balance_valuation_witness :
    get_balance true true (['X'] ++ USDT) envX [(USDT, 7)] = some 7 := by
  have h := zero_base_balance_valuation (['X'] ++ USDT) ['X'] USDT envX
    [(USDT, 7)] 3 0 (by decide) (by decide) (by decide) (by decide) (by decide)
  rw [h]
  decide

/-- Looking a configured account up in the cell list a tick builds yields the
valuation of exactly that account. -/
theorem lookup_map_self (accounts : List String) (f : String → Option ℚ)
    (a : String) (ha : a ∈ accounts) :
    (accounts.map (fun b => (b, f b))).lookup a = some (f a) := by
  induction accounts with
  | nil => cases ha
  | cons x xs ih =>
    rcases List.mem_cons.mp ha with rfl | h
    · simp [List.lookup]
    · by_cases hx : a = x
      · subst hx; simp [List.lookup]
      · simp only [List.map_cons, List.lookup,
          beq_eq_false_iff_ne.mpr hx]
        exact ih h

/-- The slot of an account in the cell list depends only on the valuation of
that same account. -/
theorem lookup_map_congr (accounts : List String) (f g : String → Option ℚ)
    (b : String) (hfg : f b = g b) :
    (accounts.map (fun c => (c, f c))).lookup b =
      (accounts.map (fun c => (c, g c))).lookup b := by
  induction accounts with
  | nil => rfl
  | cons x xs ih =>
    by_cases hx : b = x
    · subst hx; simp [List.lookup, hfg]
    · simp only [List.map_cons, List.lookup,
        beq_eq_false_iff_ne.mpr hx]
      exact ih

/-- Folding `save_balance_data` over ticks appends their rows in order. -/
theorem foldl_save (accounts : List String)
    (ticks : List (ℚ × (String → Option ℚ))) (init : List SampleRow) :
    ticks.foldl (fun file t => save_balance_data accounts t.2 t.1 file)
        (some init) =
      some (init ++ ticks.map (fun t => make_sample t.1 accounts t.2)) := by
  induction ticks generalizing init with
  | nil => simp
  | cons t ts ih =>
    rw [List.foldl_cons]
    show ts.foldl _ (some (init ++ [make_sample t.1 accounts t.2])) = _
    rw [ih]
    simp

/-- C7: appending N samples to an empty store and then loading yields
exactly the N rows in append order, and every slot a tick recorded as absent
is still the absent marker in the loaded rows, never zero. -/
theorem store_append_load_roundtrip (accounts : List String)
    (ticks : List (ℚ × (String → Option ℚ))) :
    (get_historical_data
        (ticks.foldl (fun file t => save_balance_data accounts t.2 t.1 file)
          none) =
      if ticks.isEmpty then none
      else some (ticks.map (fun t => make_sample t.1 accounts t.2))) ∧
    (∀ t ∈ ticks, ∀ a ∈ accounts, t.2 a = none →
      (make_sample t.1 accounts t.2).cells.lookup a = some none) := by
  constructor
  · cases ticks with
    | nil => rfl
    | cons t ts =>
      have h1 : save_balance_data accounts t.2 t.1 none =
          some ([] ++ [make_sample t.1 accounts t.2]) := rfl
      rw [List.foldl_cons, h1, foldl_save]
      simp [get_historical_data]
  · intro t ht a ha habs
    unfold make_sample
    rw [lookup_map_self accounts t.2 a ha, habs]

/-- C7 witness: one tick with an absent slot for account `A` round-trips as
one loaded row whose `A` slot is still the absent marker. -/
theorem store_append_load_roundtrip_witness :
    get_historical_data
        ([((0 : ℚ), valW)].foldl
          (fun file t => save_balance_data ["A"] t.2 t.1 file) none) =
      some [make_sample 0 ["A"] valW] ∧
      (make_sample 0 ["A"] valW).cells.lookup "A" = some none := by
  have h := store_append_load_roundtrip ["A"] [((0 : ℚ), valW)]
  constructor
  · rw [h.1]; rfl
  · exact h.2 ((0 : ℚ), valW) (by simp) "A" (by simp) (by simp [valW])

/-- While the running flag is set, the loop keeps running through any
sequence of tick outcomes. -/
theorem monitor_loop_running (accounts : List String)
    (ticks : List (ℚ × (String → Option ℚ))) :
    ∀ file, (monitor_loop accounts ticks ⟨true, file⟩).running = true := by
  induction ticks with
  | nil => intro file; rfl
  | cons t ts ih =>
    intro file
    rw [monitor_loop, if_pos rfl]
    exact ih _

/-- C8: a tick whose valuation of account `a` failed still appends exactly
one full row; the slot of `a` is the absent marker while the slot of every
other account is whatever its own valuation gave (unchanged if the failure is
repaired); a missing credential handle or a failed fetch valuates to the
absent marker; and the loop keeps running through any tick outcomes until
`stop_monitoring`, after which it does nothing. -/
theorem scheduler_error_isolation
    (accounts : List String) (f g : String → Option ℚ) (a : String) (ts : ℚ)
    (file : Option (List SampleRow)) (ticks : List (ℚ × (String → Option ℚ)))
    (ha : a ∈ accounts) (hf : f a = none)
    (hfg : ∀ b, b ≠ a → f b = g b) :
    (save_balance_data accounts f ts file =
      some (file.getD [] ++ [make_sample ts accounts f])) ∧
    ((make_sample ts accounts f).cells.lookup a = some none) ∧
    (∀ b, b ≠ a →
      (make_sample ts accounts f).cells.lookup b =
        (make_sample ts accounts g).cells.lookup b) ∧
    (∀ (pairSym : Symb) (env : MarketEnv) (bal : List (Symb × ℚ)),
      get_balance true false pairSym env bal = none ∧
      get_balance false true pairSym env bal = none) ∧
    ((monitor_loop accounts ticks ⟨true, file⟩).running = true) ∧
    (∀ st : MonitorState, stop_monitoring st = ⟨false, st.file⟩ ∧
      monitor_loop accounts ticks (stop_monitoring st) = stop_monitoring st) := by
  refine ⟨rfl, ?_, ?_, ?_, monitor_loop_running accounts ticks file, ?_⟩
  · unfold make_sample
    rw [lookup_map_self accounts f a ha, hf]
  · intro b hb
    unfold make_sample
    exact lookup_map_congr accounts f g b (hfg b hb)
  · intro pairSym env bal
    exact ⟨rfl, rfl⟩
  · intro st
    refine ⟨rfl, ?_⟩
    cases ticks with
    | nil => rfl
    | cons t ts => rw [monitor_loop, if_neg (by simp [stop_monitoring])]

/-- C8 witness: with the valuation of `A` failed and `B` valued at 1, the
sample slot of `A` is absent, the slot of `B` is what it would be had `A`
succeeded, and the loop is still running after the tick. -/
theorem scheduler_error_isolation_witness :
    (make_sample 0 ["A", "B"] valW).cells.lookup "A" = some none ∧
      (make_sample 0 ["A", "B"] valW).cells.lookup "B" =
        (make_sample 0 ["A", "B"] valW2).cells.lookup "B" ∧
      (monitor_loop ["A", "B"] [((0 : ℚ), valW)] ⟨true, none⟩).running = true := by
  have hfg : ∀ b, b ≠ "A" → valW b = valW2 b := by
    intro b hb
    simp [valW, valW2, hb]
  have h := scheduler_error_isolation ["A", "B"] valW valW2 "A" 0 none
    [((0 : ℚ), valW)] (by simp) (by simp [valW]) hfg
  exact ⟨h.2.1, h.2.2.1 "B" (by simp), h.2.2.2.2.1⟩

/-- C9: `calculate_account_annual_return` signals every degenerate input by
the absent marker instead of raising: an empty series, an account that is not
a column, an account with no present value, and an account whose first
present value is zero. -/
theorem calculate_annual_return_degenerate_none (df : DataFrame) (a : String) :
    (df.rows = [] → calculate_account_annual_return df a = none) ∧
    (a ∉ df.cols → calculate_account_annual_return df a = none) ∧
    ((∀ r ∈ df.rows, r.value a = none) →
      calculate_account_annual_return df a = none) ∧
    (∀ r0 rest, presentRows df a = r0 :: rest → r0.value a = some 0 →
      calculate_account_annual_return df a = none) := by
  refine ⟨?_, ?_, ?_, ?_⟩
  · intro h
    unfold calculate_account_annual_return
    rw [h]
    rfl
  · intro h
    unfold calculate_account_annual_return
    by_cases h1 : df.rows.isEmpty
    · rw [if_pos h1]
    · rw [if_neg h1, if_pos h]
  · intro h
    have hfilter : presentRows df a = [] := by
      unfold presentRows
      rw [List.filter_eq_nil_iff]
      intro r hr
      simp [h r hr]
    unfold calculate_account_annual_return
    rw [hfilter]
    by_cases h1 : df.rows.isEmpty
    · rw [if_pos h1]
    · rw [if_neg h1]
      by_cases h2 : ¬ a ∈ df.cols
      · rw [if_pos h2]
      · rw [if_neg h2]
  · intro r0 rest hfilter h0
    unfold calculate_account_annual_return
    rw [hfilter]
    simp only [h0, Option.getD_some]
    by_cases h1 : df.rows.isEmpty
    · rw [if_pos h1]
    · rw [if_neg h1]
      by_cases h2 : ¬ a ∈ df.cols
      · rw [if_pos h2]
      · rw [if_neg h2, if_pos (Or.inl trivial)]

/-- C9 witness: the four degenerate inputs, concretely. -/
theorem calculate_annual_return_degenerate_none_witness :
    calculate_account_annual_return dfEmpty "A" = none ∧
      calculate_account_annual_return dfA "Z" = none ∧
      calculate_account_annual_return dfAbsent "A" = none ∧
      calculate_account_annual_return dfZero "A" = none :=
  ⟨(calculate_annual_return_degenerate_none dfEmpty "A").1 rfl,
    (calculate_annual_return_degenerate_none dfA "Z").2.1 (by decide),
    (calculate_annual_return_degenerate_none dfAbsent "A").2.2.1 (by decide),
    (calculate_annual_return_degenerate_none dfZero "A").2.2.2
      ⟨0, 0, [("A", some 0)]⟩ [⟨1, 60, [("A", some 5)]⟩] (by decide) (by decide)⟩

/-- C10: for a duplicate-free configured account list, the row a tick builds
carries the timestamp plus exactly one slot per configured account name in
configuration order, whatever each valuation returned; an account without a
usable credential handle gets the absent marker; and the row is appended as
one unit. -/
theorem tick_row_schema
    (accounts : List String) (ts : ℚ) (hasClient fetchOk : String → Bool)
    (pair : Symb) (env : String → MarketEnv)
    (bal : String → List (Symb × ℚ)) (file : Option (List SampleRow))
    (hnd : accounts.Nodup) :
    ((make_sample ts accounts
        (tick_value_of hasClient fetchOk pair env bal)).ts = ts) ∧
    ((make_sample ts accounts
        (tick_value_of hasClient fetchOk pair env bal)).cells.map Prod.fst =
      accounts) ∧
    ((make_sample ts accounts
        (tick_value_of hasClient fetchOk pair env bal)).cells.map
          Prod.fst).Nodup ∧
    (∀ a ∈ accounts,
      (make_sample ts accounts
        (tick_value_of hasClient fetchOk pair env bal)).cells.lookup a =
        some (tick_value_of hasClient fetchOk pair env bal a)) ∧
    (∀ a ∈ accounts, hasClient a = false →
      (make_sample ts accounts
        (tick_value_of hasClient fetchOk pair env bal)).cells.lookup a =
        some none) ∧
    (save_balance_data accounts (tick_value_of hasClient fetchOk pair env bal)
        ts file =
      some (file.getD [] ++
        [make_sample ts accounts (tick_value_of hasClient fetchOk pair env bal)])) := by
  have hkeys : (make_sample ts accounts
      (tick_value_of hasClient fetchOk pair env bal)).cells.map Prod.fst =
      accounts := by
    have hcomp : (Prod.fst ∘ fun a =>
        (a, tick_value_of hasClient fetchOk pair env bal a)) = id := rfl
    unfold make_sample
    rw [List.map_map, hcomp, List.map_id]
  refine ⟨rfl, hkeys, ?_, ?_, ?_, rfl⟩
  · rw [hkeys]; exact hnd
  · intro a ha
    unfold make_sample
    exact lookup_map_self accounts _ a ha
  · intro a ha hcf
    unfold make_sample
    rw [lookup_map_self accounts _ a ha]
    unfold tick_value_of
    rw [hcf]
    rfl

/-- C10 witness: with only `B` holding a credential handle, the tick row keys
are exactly `A`, `B` and the slot of `A` is absent. -/
theorem tick_row_schema_witness :
    (make_sample 0 ["A", "B"]
      (tick_value_of hasClientW (fun _ => true) (BTC ++ USDT)
        (fun _ => envNone) (fun _ => []))).cells.map Prod.fst = ["A", "B"] ∧
    (make_sample 0 ["A", "B"]
      (tick_value_of hasClientW (fun _ => true) (BTC ++ USDT)
        (fun _ => envNone) (fun _ => []))).cells.lookup "A" = some none := by
  have h := tick_row_schema ["A", "B"] 0 hasClientW (fun _ => true) (BTC ++ USDT)
    (fun _ => envNone) (fun _ => []) none (by decide)
  exact ⟨h.2.1, h.2.2.2.2.1 "A" (by decide) (by decide)⟩
